import Mathlib

/-!
Shallow embedding of the agent-orchestration core of the `codi` VS Code
extension: the agent execution loop in `src/agents/agentManager.ts`
(`AgentManager.runAgent`, `AgentManager.registerTools`) and the
polling async bridge in `src/tools/browserPreviewTool.ts`
(`openPreview`'s inbound-message handler, `inspectElement`,
`executeScript`, `takeScreenshot`, `saveScreenshot`).

JavaScript values that flow through the loop (parsed JSON tool inputs,
tool results, workspace-state slots) are modelled by the inductive
`JVal`; fallible operations (`JSON.parse`, `tool.execute`, the model
call) are modelled with `Except String`, the `.error` carrying the
thrown error's message.
-/

namespace Codi

/-- A JavaScript/JSON value as it flows through the orchestrator and the
async bridge: `undefined`, `null`, booleans, numbers (integral model),
strings, arrays and objects. -/
inductive JVal where
  | undefined : JVal
  | jnull : JVal
  | bool (b : Bool) : JVal
  | num (n : Int) : JVal
  | str (s : String) : JVal
  | arr (elems : List JVal) : JVal
  | obj (fields : List (String × JVal)) : JVal

/-- JavaScript strict comparison `v !== undefined` (used by
`executeScript`'s poll check): only the tag is inspected. -/
def JVal.isUndefined : JVal → Bool
  | .undefined => true
  | _ => false

/-- JavaScript truthiness of a `JVal` (used by `inspectElement`'s
`if (result)` poll check): `undefined`, `null`, `false`, `0` and the
empty string are falsy; arrays and objects are always truthy. -/
def JVal.truthy : JVal → Bool
  | .undefined => false
  | .jnull => false
  | .bool b => b
  | .num n => n != 0
  | .str s => !s.isEmpty
  | .arr _ => true
  | .obj _ => true

/-- A JavaScript `Map` with string keys (also the VS Code
`workspaceState` memento), modelled extensionally as the key-to-value
lookup it denotes.  (None of the modelled operations observes the
insertion order of a `Map`, so the lookup function is the whole state.) -/
def JsMap (α : Type) : Type := String → Option α

/-- The empty `Map`. -/
def mapEmpty {α : Type} : JsMap α := fun _ => none

/-- `Map.set(k, v)`: afterwards `k` maps to `v` and every other key is
unchanged; a previous value at `k` is silently replaced. -/
def mapSet {α : Type} (m : JsMap α) (k : String) (v : α) : JsMap α :=
  fun k' => if k' = k then some v else m k'

/-- `Map.get(k)`: the value at the key, if any. -/
def mapGet {α : Type} (m : JsMap α) (k : String) : Option α := m k

/-! ## The tool contract and the registry (`src/tools/baseTool.ts`,
`AgentManager.registerTools`) -/

/-- `BaseTool`: name, description and the `execute` operation.  `execute`
takes the parsed JSON input and either returns a result or throws;
a throw is modelled as `Except.error` carrying `error.message`.
(The `parameters` schema and `dispose` play no role in the claims.) -/
structure BaseTool where
  name : String
  description : String
  exec : JVal → Except String JVal

/-- The `AgentManager.tools` map: tool name to tool. -/
abbrev ToolRegistry := JsMap BaseTool

/-- `AgentManager.registerTools(tools)`:
`for (const tool of tools) this.tools.set(tool.name, tool)` —
each tool is `Map.set` into the registry under its name, in order. -/
def registerTools (tools0 : ToolRegistry) (tools : List BaseTool) : ToolRegistry :=
  tools.foldl (fun m tool => mapSet m tool.name tool) tools0

/-! ## The model-response shape and the transcript -/

/-- One requested tool call of a model response.  `argumentsParse` is the
outcome of `JSON.parse(toolCall.function.arguments)`: `.ok v` when the
serialized payload parses to `v`, `.error msg` when `JSON.parse` throws
with message `msg`. -/
structure ToolCall where
  id : String
  name : String
  argumentsParse : Except String JVal

/-- A model response: optional `content` text and the (possibly empty)
list of requested tool calls. -/
structure ModelResponse where
  content : Option String
  tool_calls : List ToolCall

/-- The content of a tool-result message:
`JSON.stringify(result)` on success, and
`JSON.stringify(\x7b error: error.message \x7d)` on failure. -/
inductive SerializedResult where
  | okJson (v : JVal) : SerializedResult
  | errJson (msg : String) : SerializedResult

/-- A transcript message: the seeded system and user messages, the model
responses pushed at line 119, and the tool-result messages pushed (all at
once, after the dispatch loop) at line 195 of `agentManager.ts`. -/
inductive Message where
  | system (content : String) : Message
  | user (content : String) : Message
  | assistant (content : Option String) (tool_calls : List ToolCall) : Message
  | tool (tool_call_id : String) (content : SerializedResult) : Message

/-- `ToolExecutionResult` of `agentManager.ts`: `success`, `data`
(`null` on failure) and the optional `error` message. -/
structure ToolExecutionResult where
  success : Bool
  data : JVal
  error : Option String

/-- `AgentExecutionStep` of `agentManager.ts`. -/
structure AgentExecutionStep where
  thought : String
  action : String
  toolName : Option String
  toolInput : Option JVal
  result : Option ToolExecutionResult

/-- One `executionLog +=` append of `runAgent`, kept structured: the
initial header, a `## Thinking` section, a `## Executing Tool` section
(with its `Input:` block), a `Result:` block, an `Error:` line, the
`## Summary` section, and the `## Error` truncation section. -/
inductive LogEntry where
  | header : LogEntry
  | thinking (s : String) : LogEntry
  | executingTool (name : String) (input : JVal) : LogEntry
  | toolResult (v : JVal) : LogEntry
  | toolError (msg : String) : LogEntry
  | summary (s : String) : LogEntry
  | truncation (msg : String) : LogEntry

/-! ## The dispatch loop over one turn's tool calls
(`agentManager.ts` lines 128-195) -/

/-- The per-turn dispatch loop (`for (const toolCall of
responseMessage.tool_calls)`), processing the calls in order:

* `JSON.parse` the arguments; a parse failure is **not** caught by the
  per-call `try` (which only wraps `tool.execute`), so it aborts the loop:
  the `.error` carries the parse error's message together with the steps
  and log entries appended for the calls already processed (the local
  `toolResults` array is discarded by the throw, so no tool-result
  message of this turn survives);
* look the tool up; a missing tool yields a per-call failure result
  `Tool '<name>' not found`;
* run `tool.execute`; a throw is caught and yields a per-call failure
  result.

On success returns the `toolResults` messages (one per call, in call
order), the recorded `AgentExecutionStep`s and the log entries. -/
def processToolCalls (tools : ToolRegistry) (thought : String) :
    List ToolCall →
    Except (String × List AgentExecutionStep × List LogEntry)
      (List Message × List AgentExecutionStep × List LogEntry)
  | [] => .ok ([], [], [])
  | tc :: rest =>
    match tc.argumentsParse with
    | .error e => .error (e, [], [])
    | .ok toolInput =>
      let outcome : Message × AgentExecutionStep × List LogEntry :=
        match mapGet tools tc.name with
        | some tool =>
          match tool.exec toolInput with
          | .ok result =>
            (Message.tool tc.id (.okJson result),
             { thought := thought, action := "tool_call", toolName := some tc.name,
               toolInput := some toolInput,
               result := some { success := true, data := result, error := none } },
             [LogEntry.toolResult result])
          | .error emsg =>
            (Message.tool tc.id (.errJson emsg),
             { thought := thought, action := "tool_call", toolName := some tc.name,
               toolInput := some toolInput,
               result := some { success := false, data := .jnull, error := some emsg } },
             [LogEntry.toolError emsg])
        | none =>
          (Message.tool tc.id (.errJson ("Tool '" ++ tc.name ++ "' not found")),
           { thought := thought, action := "tool_call", toolName := some tc.name,
             toolInput := some toolInput,
             result := some { success := false, data := .jnull,
                              error := some ("Tool '" ++ tc.name ++ "' not found") } },
           [LogEntry.toolError ("Tool '" ++ tc.name ++ "' not found")])
      match processToolCalls tools thought rest with
      | .error (e, ss, ls) =>
        .error (e, outcome.2.1 :: ss,
                LogEntry.executingTool tc.name toolInput :: (outcome.2.2 ++ ls))
      | .ok (ms, ss, ls) =>
        .ok (outcome.1 :: ms, outcome.2.1 :: ss,
             LogEntry.executingTool tc.name toolInput :: (outcome.2.2 ++ ls))

/-! ## The agent loop (`AgentManager.runAgent`) -/

/-- The mutable locals of `runAgent`, threaded through the loop:
`messages`, `executionSteps`, `executionLog`, `finalResponse`, plus an
instrumentation counter of how many model-service invocations
(`openai.chat.completions.create`) have been issued. -/
structure LoopState where
  messages : List Message
  steps : List AgentExecutionStep
  executionLog : List LogEntry
  finalResponse : String
  modelCalls : Nat

/-- The outcome of `runAgent`: `.ok returned st` models a normal return,
where `returned` is the value of the `return executionLog;` statement and
`st` the loop state at exit; `.thrown msg st` models the
`throw new Error(...)` of the outer `catch`, with the loop state at the
moment of the throw. -/
inductive RunResult where
  | ok (returned : List LogEntry) (st : LoopState) : RunResult
  | thrown (msg : String) (st : LoopState) : RunResult

/-- The model service: turn index (number of calls already made) to the
outcome of `openai.chat.completions.create` — the response message, or
`.error` with the thrown error's message. -/
abbrev ModelService := Nat → Except String ModelResponse

/-- How one iteration of the `while` loop body ends: an uncaught throw
(reaching the outer `catch`), a `break` with the final answer, or
falling through to the next iteration. -/
inductive TurnOutcome where
  | throw (msg : String) (st : LoopState) : TurnOutcome
  | finish (st : LoopState) : TurnOutcome
  | next (st : LoopState) : TurnOutcome

/-- The loop state an iteration ended in, whichever way it ended. -/
def TurnOutcome.state : TurnOutcome → LoopState
  | .throw _ st => st
  | .finish st => st
  | .next st => st

/-- One iteration of the `while (maxIterations > 0)` body of `runAgent`:

* invoke the model service; a throw there reaches the outer `catch` and
  rethrows `Failed to run agent: <msg>`;
* push the response message; if it requests tool calls, log the optional
  `## Thinking` section (the `if (responseMessage.content)` truthiness
  check: present and non-empty), dispatch all the calls via
  `processToolCalls` and push the tool results — an uncaught dispatch
  throw (a payload parse failure) also reaches the outer `catch`,
  discarding the turn's tool-result messages;
* if it requests none, it is the final answer: set `finalResponse`,
  log `## Summary` and `break`. -/
def runTurn (model : ModelService) (tools : ToolRegistry) (st : LoopState) :
    TurnOutcome :=
  match model st.modelCalls with
  | .error e =>
    .throw ("Failed to run agent: " ++ e) { st with modelCalls := st.modelCalls + 1 }
  | .ok responseMessage =>
    let st :=
      { st with
        modelCalls := st.modelCalls + 1,
        messages :=
          st.messages ++ [Message.assistant responseMessage.content responseMessage.tool_calls] }
    if responseMessage.tool_calls.isEmpty then
      let finalResponse := responseMessage.content.getD ""
      .finish
        { st with finalResponse := finalResponse,
                  executionLog := st.executionLog ++ [LogEntry.summary finalResponse] }
    else
      let st :=
        match responseMessage.content with
        | some s =>
          if s.isEmpty then st
          else { st with executionLog := st.executionLog ++ [LogEntry.thinking s] }
        | none => st
      let thought := responseMessage.content.getD ""
      match processToolCalls tools thought responseMessage.tool_calls with
      | .error (e, psteps, plog) =>
        .throw ("Failed to run agent: " ++ e)
          { st with steps := st.steps ++ psteps, executionLog := st.executionLog ++ plog }
      | .ok (toolResults, psteps, plog) =>
        .next
          { st with
            messages := st.messages ++ toolResults,
            steps := st.steps ++ psteps,
            executionLog := st.executionLog ++ plog }

/-- The `while (maxIterations > 0)` loop of `runAgent`, by recursion on
`maxIterations`, iterating `runTurn`:

* budget exhausted (the `if (maxIterations === 0)` block after the
  loop): prefix `finalResponse` with the truncation notice and append
  the `## Error` log entry, then `return executionLog`;
* a `break` (final answer) returns `executionLog` directly — the
  truncation block is skipped there because `maxIterations` is still
  positive;
* a throw propagates; otherwise decrement and iterate. -/
def runLoop (model : ModelService) (tools : ToolRegistry) :
    Nat → LoopState → RunResult
  | 0, st =>
    let timeoutMessage := "Execution exceeded maximum number of steps."
    let log := st.executionLog ++ [LogEntry.truncation timeoutMessage]
    .ok log
      { st with
        finalResponse :=
          timeoutMessage ++ " Here's the partial result: " ++ st.finalResponse,
        executionLog := log }
  | maxIterations + 1, st =>
    match runTurn model tools st with
    | .throw msg st => .thrown msg st
    | .finish st => .ok st.executionLog st
    | .next st => runLoop model tools maxIterations st

/-- `AgentManager.buildSystemPrompt`. -/
def buildSystemPrompt : String :=
  "You are Code Agent, a VS Code extension that helps developers write, fix, and understand code. \nYou have access to various tools to help you accomplish tasks.\n\nIMPORTANT: You must use the provided tools to create and modify files directly rather than just returning code in your response. \nWhen a user asks you to create or modify code, use the appropriate file operation tools:\n- Use 'code-generation' tool for creating files, modifying files, and managing projects\n- Use 'file-system' tool for reading, writing, and manipulating files\n- Use 'terminal' tool for running commands like git operations or build processes\n\nAlways think step by step and use the appropriate tools when needed.\nAnalyze the code context carefully and provide helpful, accurate responses.\nWhen writing or modifying code, follow clean coding practices:\n- Write readable code\n- Don't repeat code\n- Extract common code into functions\n- Keep code testable\n- Follow best practices for the language or framework being used\n\nAfter using tools to make changes, summarize what you've done in a user-friendly way."

/-- `AgentManager.buildUserPrompt`: the prompt, with the optional context
appended in a fenced block. -/
def buildUserPrompt (prompt : String) (context : Option String) : String :=
  match context with
  | some ctx =>
    prompt ++ "\n\nHere is the relevant code context:\n```\n" ++ ctx ++ "\n```"
  | none => prompt

/-- The state `runAgent` seeds before entering the loop: the transcript
holds the system and user messages, the log its header, and the locals
their initial values. -/
def initialState (prompt : String) (context : Option String) : LoopState :=
  { messages :=
      [Message.system buildSystemPrompt, Message.user (buildUserPrompt prompt context)],
    steps := [], executionLog := [LogEntry.header], finalResponse := "",
    modelCalls := 0 }

/-- `AgentManager.runAgent(prompt, context?)`: seed the transcript with
the system and user messages, start the log with its header, and run the
loop with `maxIterations = 10`. -/
def runAgent (model : ModelService) (tools : ToolRegistry)
    (prompt : String) (context : Option String) : RunResult :=
  runLoop model tools 10 (initialState prompt context)

/-! ## Observation helpers on run outcomes -/

/-- Whether the run ended in a thrown error. -/
def RunResult.threw : RunResult → Bool
  | .thrown _ _ => true
  | .ok _ _ => false

/-- The loop state at exit (normal return or throw). -/
def RunResult.state : RunResult → LoopState
  | .ok _ st => st
  | .thrown _ st => st

/-- How many model-service invocations the run issued. -/
def RunResult.modelCalls (r : RunResult) : Nat := r.state.modelCalls

/-- The call identifier of a tool-result message, `none` for the other
message roles. -/
def toolMsgId : Message → Option String
  | .tool id _ => some id
  | _ => none

/-- The number of tool-result messages in a transcript. -/
def countToolMsgs (ms : List Message) : Nat :=
  (ms.filter (fun m => (toolMsgId m).isSome)).length

/-- The number of tool calls requested by assistant messages of a
transcript. -/
def countRequestedCalls (ms : List Message) : Nat :=
  (ms.map (fun m =>
    match m with
    | .assistant _ tcs => tcs.length
    | _ => 0)).sum

/-- The number of `## Executing Tool` entries of an execution log. -/
def countToolCallEntries (log : List LogEntry) : Nat :=
  (log.filter (fun e =>
    match e with
    | .executingTool _ _ => true
    | _ => false)).length

/-- The number of `## Summary` (final-answer) entries of an execution
log. -/
def countSummaryEntries (log : List LogEntry) : Nat :=
  (log.filter (fun e =>
    match e with
    | .summary _ => true
    | _ => false)).length

/-- The texts of the `## Summary` entries of an execution log. -/
def summaryTexts (log : List LogEntry) : List String :=
  log.filterMap (fun e =>
    match e with
    | .summary s => some s
    | _ => none)

/-- Whether an execution log contains the `## Error` truncation entry. -/
def hasTruncationEntry (log : List LogEntry) : Bool :=
  log.any (fun e =>
    match e with
    | .truncation _ => true
    | _ => false)

/-- The value `runAgent` hands back on a normal return — the execution
log of the `return executionLog;` statement — and `none` when it threw. -/
def returnedLog : RunResult → Option (List LogEntry)
  | .ok returned _ => some returned
  | .thrown _ _ => none

/-- The message of the thrown error, `none` on a normal return. -/
def RunResult.errMsg : RunResult → Option String
  | .ok _ _ => none
  | .thrown msg _ => some msg

/-- Correlation of one requested call to the tool-result message the
dispatch loop produced for it: the message carries the call's own id,
and when the call named an unregistered tool, the message is exactly the
tool-result carrying the `Tool '<name>' not found` error payload. -/
def resultFor (tools : ToolRegistry) (tc : ToolCall) (m : Message) : Prop :=
  toolMsgId m = some tc.id ∧
  (mapGet tools tc.name = none →
    m = Message.tool tc.id (.errJson ("Tool '" ++ tc.name ++ "' not found")))

/-! ## The async bridge of `src/tools/browserPreviewTool.ts`

The bridge's result slots live in `this.context.workspaceState`
(a VS Code memento), keyed by correlation strings; `update(key, v)` sets
a slot and `get(key)` reads it, yielding `undefined` for an absent slot.
The webview posts inbound messages, dispatched by the
`panel.webview.onDidReceiveMessage` handler installed in `openPreview`. -/

/-- The `workspaceState` slot store. -/
abbrev WorkspaceState := JsMap JVal

/-- `workspaceState.update(key, v)`.  Clearing a slot
(`update(key, undefined)`) is `storeUpdate` with `JVal.undefined`. -/
def storeUpdate (st : WorkspaceState) (k : String) (v : JVal) : WorkspaceState :=
  mapSet st k v

/-- `workspaceState.get(key)`: the stored value, `undefined` when the key
is absent. -/
def storeGet (st : WorkspaceState) (k : String) : JVal :=
  (mapGet st k).getD .undefined

/-- An inbound message posted by the webview.  The handler switches on
`type`; the remaining fields are those the handler (or the poster) reads:
`selector`/`result` for `inspectionResult`, `scriptId`/`result` for the
webview's `scriptResult` posts, `data` for `screenshotTaken`, `message`
for `error` and `log`. -/
structure WebviewMessage where
  type : String
  selector : String
  result : JVal
  scriptId : String
  data : String
  message : String

/-- The `onDidReceiveMessage` handler installed by `openPreview`
(lines 120-140): its `switch (message.type)` has cases only for
`error` (shows a notification), `log` (console logging),
`inspectionResult` (writes the slot
`inspection-<previewId>-<selector>`) and `screenshotTaken` (saves a
file).  Only the `inspectionResult` case touches `workspaceState`; every
other message type — including the `scriptResult` messages the webview
script posts — leaves the store unchanged. -/
def handleWebviewMessage (previewId : String) (st : WorkspaceState)
    (m : WebviewMessage) : WorkspaceState :=
  if m.type = "inspectionResult" then
    storeUpdate st ("inspection-" ++ previewId ++ "-" ++ m.selector) m.result
  else st

/-- The polling wait shared by `inspectElement` and `executeScript`:
starting from attempt index `attempts` with `remaining` attempts left
(the source starts at `attempts = 0` with `maxAttempts = 30`), read the
slot `key` in the store as it stands at that attempt (`storeAt t` is the
store when the check of attempt `t` runs, reflecting every inbound
message the handler has processed by then); return the value as soon as
`ready` accepts it, sleep 100ms and retry otherwise, and throw
`timeoutMsg` once the attempt budget is exhausted. -/
def pollSlot (storeAt : Nat → WorkspaceState) (key : String)
    (ready : JVal → Bool) (timeoutMsg : String) :
    Nat → Nat → Except String JVal
  | _, 0 => .error timeoutMsg
  | attempts, remaining + 1 =>
    let result := storeGet (storeAt attempts) key
    if ready result then .ok result
    else pollSlot storeAt key ready timeoutMsg (attempts + 1) remaining

/-- The waiting half of `BrowserPreviewTool.inspectElement` (lines
201-217), after it has cleared the slot and posted the `inspectElement`
command: poll `inspection-<previewId>-<selector>` up to 30 times at
100ms, resolving on a truthy slot value (`if (result)`), else throw the
inspection timeout error. -/
def inspectElementAwait (storeAt : Nat → WorkspaceState)
    (previewId selector : String) : Except String JVal :=
  pollSlot storeAt ("inspection-" ++ previewId ++ "-" ++ selector)
    JVal.truthy
    ("Timed out waiting for element inspection result for selector: " ++ selector)
    0 30

/-- The waiting half of `BrowserPreviewTool.executeScript` (lines
241-257), after it has cleared the slot and posted the `executeScript`
command: poll `script-result-<scriptId>` up to 30 times at 100ms,
resolving on a slot value that is not `undefined`
(`if (result !== undefined)`), else throw the script timeout error. -/
def executeScriptAwait (storeAt : Nat → WorkspaceState)
    (scriptId : String) : Except String JVal :=
  pollSlot storeAt ("script-result-" ++ scriptId)
    (fun v => !v.isUndefined)
    "Timed out waiting for script execution result"
    0 30

/-! ## Screenshots (`takeScreenshot`, `saveScreenshot`) -/

/-- The fields of `BrowserPreviewTool` that `takeScreenshot` reads and
writes: the ids of the open previews (`activePreviews` keys) and the
`screenshotCounter`. -/
structure BrowserPreviewState where
  activePreviews : List String
  screenshotCounter : Nat

/-- `path.join(dir, file)`. -/
def pathJoin (dir file : String) : String := dir ++ "/" ++ file

/-- `BrowserPreviewTool.takeScreenshot(previewId)` (lines 160-171):
`getPreviewPanel` throws `Preview with ID <id> not found` when the id is
not an open preview; otherwise the method posts the `takeScreenshot`
command to the webview and — without waiting for any reply (its result
does not depend on the inbound-message store at all) — increments
`screenshotCounter` and returns
`\x7b success: true, screenshotPath: <tempDir>/screenshot-<counter>.png \x7d`. -/
def takeScreenshot (st : BrowserPreviewState) (tempDir previewId : String) :
    Except String (BrowserPreviewState × Bool × String) :=
  if st.activePreviews.contains previewId then
    let screenshotNumber := st.screenshotCounter + 1
    .ok ({ st with screenshotCounter := screenshotNumber }, true,
      pathJoin tempDir ("screenshot-" ++ Nat.repr screenshotNumber ++ ".png"))
  else
    .error ("Preview with ID " ++ previewId ++ " not found")

/-- The path of the file `BrowserPreviewTool.saveScreenshot` actually
writes (lines 599-619): `<tempDir>/screenshot-<Date.now()>.png`, the
file name taken from the clock (`now` is the `Date.now()` value in
milliseconds), not from the counter. -/
def saveScreenshotPath (tempDir : String) (now : Nat) : String :=
  pathJoin tempDir ("screenshot-" ++ Nat.repr now ++ ".png")

/-! ## Concrete instances used by witnesses and counterexamples -/

/-- A trivially succeeding tool used as a registered target in concrete
runs: it echoes its parsed input. -/
def echoTool : BaseTool :=
  { name := "echo-tool", description := "echoes its input",
    exec := fun v => .ok v }

/-- The `file-system.list` tool of the reference scenario: on
`\x7b path: "/tmp" \x7d` it returns
`[\x7b name: "a.txt", type: "file", path: "/tmp/a.txt" \x7d]`. -/
def fsListTool : BaseTool :=
  { name := "file-system.list", description := "Lists the files of a directory",
    exec := fun _ =>
      .ok (JVal.arr [JVal.obj
        [("name", JVal.str "a.txt"), ("type", JVal.str "file"),
         ("path", JVal.str "/tmp/a.txt")]]) }

/-- The registry of the reference scenario. -/
def scenarioTools : ToolRegistry := registerTools mapEmpty [fsListTool]

/-- The model service of the reference scenario: turn 0 requests one
`file-system.list` call with input `\x7b path: "/tmp" \x7d`; turn 1
returns the final text with no tool calls. -/
def scenarioModel : ModelService := fun turn =>
  if turn = 0 then
    .ok { content := none,
          tool_calls := [{ id := "call_1", name := "file-system.list",
                           argumentsParse := .ok (JVal.obj [("path", JVal.str "/tmp")]) }] }
  else
    .ok { content := some "Found 1 file: a.txt", tool_calls := [] }

/-- A registry holding only `echoTool`. -/
def echoTools : ToolRegistry := registerTools mapEmpty [echoTool]

/-- A well-formed `echo-tool` call whose payload parses to `null`. -/
def okEchoCall : ToolCall :=
  { id := "call_1", name := "echo-tool", argumentsParse := .ok JVal.jnull }

/-- A call whose serialized arguments do not parse
(`JSON.parse` throws). -/
def badJsonCall : ToolCall :=
  { id := "call_0", name := "echo-tool",
    argumentsParse := .error "Unexpected end of JSON input" }

/-- A well-formed `echo-tool` call (payload a string). -/
def mixedOkCall : ToolCall :=
  { id := "call_a", name := "echo-tool", argumentsParse := .ok (JVal.str "x") }

/-- A second call of the same turn whose payload does not parse. -/
def mixedBadCall : ToolCall :=
  { id := "call_b", name := "echo-tool",
    argumentsParse := .error "Unexpected end of JSON input" }

/-- A well-formed call naming a tool that is not registered. -/
def unknownCall : ToolCall :=
  { id := "call_x", name := "no-such-tool", argumentsParse := .ok JVal.jnull }

/-- A model that requests one well-formed `echo-tool` call on every
turn, never producing a final answer. -/
def loopingModel : ModelService := fun _ =>
  .ok { content := none, tool_calls := [okEchoCall] }

/-- A model whose single turn requests one call whose serialized
arguments do not parse. -/
def badParseModel : ModelService := fun _ =>
  .ok { content := none, tool_calls := [badJsonCall] }

/-- A model whose single turn requests two calls: a well-formed
`echo-tool` call followed by a call whose payload does not parse. -/
def mixedParseModel : ModelService := fun _ =>
  .ok { content := none, tool_calls := [mixedOkCall, mixedBadCall] }

/-- A model whose first turn requests a call on an unregistered tool
name and whose second turn returns a final text. -/
def unknownToolModel : ModelService := fun turn =>
  if turn = 0 then
    .ok { content := none, tool_calls := [unknownCall] }
  else
    .ok { content := some "done", tool_calls := [] }

/-- The `scriptResult` message the webview posts after executing a
script: a defined payload for script id `script-1`. -/
def scriptReplyMsg : WebviewMessage :=
  { type := "scriptResult", selector := "", result := JVal.str "42",
    scriptId := "script-1", data := "", message := "" }

/-- The slot store after `executeScript` has cleared its slot and the
handler has processed the webview's `scriptResult` reply. -/
def scriptReplyStore : WorkspaceState :=
  handleWebviewMessage "preview-1"
    (storeUpdate mapEmpty "script-result-script-1" JVal.undefined) scriptReplyMsg

/-- A first inspection result for selector `app`. -/
def inspectMsg1 : WebviewMessage :=
  { type := "inspectionResult", selector := "app", result := JVal.str "first",
    scriptId := "", data := "", message := "" }

/-- A late duplicate inspection result for the same selector. -/
def inspectMsg2 : WebviewMessage :=
  { type := "inspectionResult", selector := "app", result := JVal.str "second",
    scriptId := "", data := "", message := "" }

/-- A tool registered under the name `file-system`. -/
def firstDupTool : BaseTool :=
  { name := "file-system", description := "the first registration",
    exec := fun _ => .ok JVal.jnull }

/-- A second, different tool registered under the same name
`file-system`. -/
def secondDupTool : BaseTool :=
  { name := "file-system", description := "the second registration",
    exec := fun _ => .ok JVal.jnull }

/-! ## Helper lemmas -/

theorem string_append_cancel_left {a b c : String} (h : a ++ b = a ++ c) : b = c := by
  apply String.ext
  have hd := congrArg String.data h
  simp only [String.data_append] at hd
  exact List.append_cancel_left hd

theorem string_append_cancel_right {a b c : String} (h : a ++ c = b ++ c) : a = b := by
  apply String.ext
  have hd := congrArg String.data h
  simp only [String.data_append] at hd
  exact List.append_cancel_right hd

theorem mapGet_mapSet_self {α : Type} (m : JsMap α) (k : String) (v : α) :
    mapGet (mapSet m k v) k = some v := by
  simp [mapGet, mapSet]

theorem mapGet_mapSet_other {α : Type} (m : JsMap α) (k k' : String) (v : α)
    (hne : k' ≠ k) : mapGet (mapSet m k v) k' = mapGet m k' := by
  simp [mapGet, mapSet, hne]

theorem storeGet_storeUpdate_self (st : WorkspaceState) (k : String) (v : JVal) :
    storeGet (storeUpdate st k v) k = v := by
  simp [storeGet, storeUpdate, mapGet_mapSet_self]

theorem storeGet_storeUpdate_other (st : WorkspaceState) (k k' : String) (v : JVal)
    (hne : k' ≠ k) : storeGet (storeUpdate st k v) k' = storeGet st k' := by
  simp [storeGet, storeUpdate, mapGet_mapSet_other st k k' v hne]

/-- When every requested call's payload parses, the dispatch loop
succeeds and produces, in call order, one tool-result message per call,
each correlated to its own call (and carrying the not-found error for
unregistered names). -/
theorem processToolCalls_ok_of_parses (tools : ToolRegistry) (th : String) :
    ∀ calls : List ToolCall,
      (∀ tc ∈ calls, ∃ v, tc.argumentsParse = Except.ok v) →
      ∃ ms ss ls, processToolCalls tools th calls = .ok (ms, ss, ls) ∧
        List.Forall₂ (resultFor tools) calls ms := by
  intro calls
  induction calls with
  | nil => exact fun _ => ⟨[], [], [], rfl, List.Forall₂.nil⟩
  | cons tc rest ih =>
    intro h
    obtain ⟨v, hv⟩ := h tc (List.mem_cons_self tc rest)
    obtain ⟨ms, ss, ls, hrest, hf⟩ :=
      ih (fun tc' htc' => h tc' (List.mem_cons_of_mem tc htc'))
    cases hget : mapGet tools tc.name with
    | none =>
      refine ⟨Message.tool tc.id (.errJson ("Tool '" ++ tc.name ++ "' not found")) :: ms,
        { thought := th, action := "tool_call", toolName := some tc.name,
          toolInput := some v,
          result := some { success := false, data := .jnull,
                           error := some ("Tool '" ++ tc.name ++ "' not found") } } :: ss,
        LogEntry.executingTool tc.name v ::
          ([LogEntry.toolError ("Tool '" ++ tc.name ++ "' not found")] ++ ls),
        ?_, List.Forall₂.cons ⟨rfl, fun _ => rfl⟩ hf⟩
      simp only [processToolCalls, hv, hget, hrest]
    | some tool =>
      cases hex : tool.exec v with
      | ok res =>
        refine ⟨Message.tool tc.id (.okJson res) :: ms,
          { thought := th, action := "tool_call", toolName := some tc.name,
            toolInput := some v,
            result := some { success := true, data := res, error := none } } :: ss,
          LogEntry.executingTool tc.name v :: ([LogEntry.toolResult res] ++ ls), ?_,
          List.Forall₂.cons ⟨rfl, fun hnone => by rw [hget] at hnone; cases hnone⟩ hf⟩
        simp only [processToolCalls, hv, hget, hex, hrest]
      | error emsg =>
        refine ⟨Message.tool tc.id (.errJson emsg) :: ms,
          { thought := th, action := "tool_call", toolName := some tc.name,
            toolInput := some v,
            result := some { success := false, data := .jnull, error := some emsg } } :: ss,
          LogEntry.executingTool tc.name v :: ([LogEntry.toolError emsg] ++ ls), ?_,
          List.Forall₂.cons ⟨rfl, fun hnone => by rw [hget] at hnone; cases hnone⟩ hf⟩
        simp only [processToolCalls, hv, hget, hex, hrest]

/-- When some requested call's payload fails to parse, the dispatch loop
throws: `processToolCalls` returns `.error`. -/
theorem processToolCalls_error_of_bad_parse (tools : ToolRegistry) (th : String) :
    ∀ calls : List ToolCall,
      (∃ tc ∈ calls, ∃ msg, tc.argumentsParse = Except.error msg) →
      ∃ e ss ls, processToolCalls tools th calls = .error (e, ss, ls) := by
  intro calls
  induction calls with
  | nil => rintro ⟨tc, htc, _⟩; cases htc
  | cons tc rest ih =>
    rintro ⟨tc', htc', msg, hmsg⟩
    cases hp : tc.argumentsParse with
    | error e => exact ⟨e, [], [], by simp only [processToolCalls, hp]⟩
    | ok v =>
      have hrest' : ∃ tc ∈ rest, ∃ msg, tc.argumentsParse = Except.error msg := by
        rcases List.mem_cons.mp htc' with heq | hmem
        · subst heq; rw [hp] at hmsg; cases hmsg
        · exact ⟨tc', hmem, msg, hmsg⟩
      obtain ⟨e, ss, ls, hrest⟩ := ih hrest'
      cases hget : mapGet tools tc.name with
      | none =>
        exact ⟨e,
          { thought := th, action := "tool_call", toolName := some tc.name,
            toolInput := some v,
            result := some { success := false, data := .jnull,
                             error := some ("Tool '" ++ tc.name ++ "' not found") } } :: ss,
          LogEntry.executingTool tc.name v ::
            ([LogEntry.toolError ("Tool '" ++ tc.name ++ "' not found")] ++ ls),
          by simp only [processToolCalls, hp, hget, hrest]⟩
      | some tool =>
        cases hex : tool.exec v with
        | ok res =>
          exact ⟨e,
            { thought := th, action := "tool_call", toolName := some tc.name,
              toolInput := some v,
              result := some { success := true, data := res, error := none } } :: ss,
            LogEntry.executingTool tc.name v :: ([LogEntry.toolResult res] ++ ls),
            by simp only [processToolCalls, hp, hget, hex, hrest]⟩
        | error emsg =>
          exact ⟨e,
            { thought := th, action := "tool_call", toolName := some tc.name,
              toolInput := some v,
              result := some { success := false, data := .jnull, error := some emsg } } :: ss,
            LogEntry.executingTool tc.name v :: ([LogEntry.toolError emsg] ++ ls),
            by simp only [processToolCalls, hp, hget, hex, hrest]⟩

/-- From the per-call correlation, the list of call ids carried by the
result messages is exactly the list of requested call ids, in order. -/
theorem forall2_map_ids (tools : ToolRegistry) :
    ∀ calls ms, List.Forall₂ (resultFor tools) calls ms →
      ms.map toolMsgId = calls.map (fun tc => some tc.id) := by
  intro calls ms h
  induction h with
  | nil => rfl
  | cons hr _ ih => simp only [List.map_cons, ih, hr.1]

/-- Each loop iteration issues exactly one model-service invocation,
whichever way it ends. -/
theorem runTurn_modelCalls (model : ModelService) (tools : ToolRegistry)
    (st : LoopState) :
    (runTurn model tools st).state.modelCalls = st.modelCalls + 1 := by
  unfold runTurn
  cases hm : model st.modelCalls with
  | error e => rfl
  | ok resp =>
    dsimp only
    cases hte : resp.tool_calls.isEmpty with
    | true => rfl
    | false =>
      try dsimp only
      cases hc : resp.content with
      | none =>
        try dsimp only
        cases hp : processToolCalls tools (Option.getD none "") resp.tool_calls with
        | error pe => obtain ⟨e1, e2, e3⟩ := pe; simp [hp, TurnOutcome.state]
        | ok pr => obtain ⟨m1, m2, m3⟩ := pr; simp [hp, TurnOutcome.state]
      | some s =>
        try dsimp only
        cases hse : s.isEmpty with
        | true =>
          simp only [if_true]
          cases hp : processToolCalls tools (Option.getD (some s) "") resp.tool_calls with
          | error pe => obtain ⟨e1, e2, e3⟩ := pe; simp [hp, TurnOutcome.state]
          | ok pr => obtain ⟨m1, m2, m3⟩ := pr; simp [hp, TurnOutcome.state]
        | false =>
          simp only [Bool.false_eq_true, if_false]
          cases hp : processToolCalls tools (Option.getD (some s) "") resp.tool_calls with
          | error pe => obtain ⟨e1, e2, e3⟩ := pe; simp [hp, TurnOutcome.state]
          | ok pr => obtain ⟨m1, m2, m3⟩ := pr; simp [hp, TurnOutcome.state]

/-- The loop issues at most `r` further model calls from any state. -/
theorem runLoop_modelCalls_le (model : ModelService) (tools : ToolRegistry) :
    ∀ r st, (runLoop model tools r st).modelCalls ≤ st.modelCalls + r := by
  intro r
  induction r with
  | zero =>
    intro st
    simp [runLoop, RunResult.modelCalls, RunResult.state]
  | succ n ih =>
    intro st
    have ht := runTurn_modelCalls model tools st
    simp only [runLoop]
    cases h : runTurn model tools st with
    | throw msg st' =>
      rw [h] at ht
      simp only [TurnOutcome.state] at ht
      simp only [RunResult.modelCalls, RunResult.state]
      omega
    | finish st' =>
      rw [h] at ht
      simp only [TurnOutcome.state] at ht
      simp only [RunResult.modelCalls, RunResult.state]
      omega
    | next st' =>
      rw [h] at ht
      simp only [TurnOutcome.state] at ht
      have := ih st'
      dsimp only
      omega

/-- From any state the loop never loses model calls: the exit count is
at least the entry count. -/
theorem runLoop_modelCalls_ge (model : ModelService) (tools : ToolRegistry) :
    ∀ r st, st.modelCalls ≤ (runLoop model tools r st).modelCalls := by
  intro r
  induction r with
  | zero =>
    intro st
    simp [runLoop, RunResult.modelCalls, RunResult.state]
  | succ n ih =>
    intro st
    have ht := runTurn_modelCalls model tools st
    simp only [runLoop]
    cases h : runTurn model tools st with
    | throw msg st' =>
      rw [h] at ht
      simp only [TurnOutcome.state] at ht
      simp only [RunResult.modelCalls, RunResult.state]
      omega
    | finish st' =>
      rw [h] at ht
      simp only [TurnOutcome.state] at ht
      simp only [RunResult.modelCalls, RunResult.state]
      omega
    | next st' =>
      rw [h] at ht
      simp only [TurnOutcome.state] at ht
      have := ih st'
      dsimp only
      omega

/-- With budget left, the loop always issues at least one more model
call. -/
theorem runLoop_modelCalls_ge_succ (model : ModelService) (tools : ToolRegistry) :
    ∀ r st, 1 ≤ r → st.modelCalls + 1 ≤ (runLoop model tools r st).modelCalls := by
  intro r st hr
  cases r with
  | zero => cases hr
  | succ n =>
    have ht := runTurn_modelCalls model tools st
    simp only [runLoop]
    cases h : runTurn model tools st with
    | throw msg st' =>
      rw [h] at ht
      simp only [TurnOutcome.state] at ht
      simp only [RunResult.modelCalls, RunResult.state]
      omega
    | finish st' =>
      rw [h] at ht
      simp only [TurnOutcome.state] at ht
      simp only [RunResult.modelCalls, RunResult.state]
      omega
    | next st' =>
      rw [h] at ht
      simp only [TurnOutcome.state] at ht
      have := runLoop_modelCalls_ge model tools n st'
      dsimp only
      omega

/-- Whenever the loop returns normally, the value returned — the
`return executionLog;` statement — is exactly the exit state's execution
log, from any starting state and budget. -/
theorem runLoop_ok_returns_log (model : ModelService) (tools : ToolRegistry) :
    ∀ r st ret st', runLoop model tools r st = .ok ret st' → ret = st'.executionLog := by
  intro r
  induction r with
  | zero =>
    intro st ret st' h
    simp only [runLoop] at h
    cases h
    rfl
  | succ n ih =>
    intro st ret st' h
    simp only [runLoop] at h
    cases ht : runTurn model tools st with
    | throw msg st'' => rw [ht] at h; cases h
    | finish st'' => rw [ht] at h; cases h; rfl
    | next st'' => rw [ht] at h; exact ih st'' ret st' h

/-- A model turn whose requested calls all parse ends its iteration in
`next` (never a throw): the response message and the turn's tool-result
messages are appended to the transcript in order, and exactly one model
call was issued. -/
theorem runTurn_next_of_parses (model : ModelService) (tools : ToolRegistry)
    (st : LoopState) (resp : ModelResponse)
    (hm : model st.modelCalls = Except.ok resp)
    (hne : resp.tool_calls.isEmpty = false)
    (ms : List Message) (ss : List AgentExecutionStep) (ls : List LogEntry)
    (hp : processToolCalls tools (resp.content.getD "") resp.tool_calls =
      Except.ok (ms, ss, ls)) :
    ∃ st', runTurn model tools st = .next st' ∧
      st'.messages = st.messages ++ [Message.assistant resp.content resp.tool_calls] ++ ms ∧
      st'.modelCalls = st.modelCalls + 1 := by
  unfold runTurn
  rw [hm]
  dsimp only
  simp only [hne, Bool.false_eq_true, if_false]
  cases hc : resp.content with
  | none =>
    rw [hc] at hp
    dsimp only
    rw [hp]
    exact ⟨_, rfl, rfl, rfl⟩
  | some s =>
    rw [hc] at hp
    dsimp only
    cases hse : s.isEmpty with
    | true =>
      simp only [if_true]
      rw [hp]
      exact ⟨_, rfl, rfl, rfl⟩
    | false =>
      simp only [Bool.false_eq_true, if_false]
      rw [hp]
      exact ⟨_, rfl, rfl, rfl⟩

/-- One step of the loop: an iteration ending in `next` hands the new
state to the remaining iterations. -/
theorem runLoop_succ_next (model : ModelService) (tools : ToolRegistry)
    (r : Nat) (st st' : LoopState) (h : runTurn model tools st = .next st') :
    runLoop model tools (r + 1) st = runLoop model tools r st' := by
  rw [runLoop, h]

/-- A model turn some of whose requested calls fail to parse ends its
iteration in an uncaught throw wrapping the parse error; the thrown
state holds the response message but none of the turn's tool-result
messages. -/
theorem runTurn_throw_of_bad_parse (model : ModelService) (tools : ToolRegistry)
    (st : LoopState) (resp : ModelResponse)
    (hm : model st.modelCalls = Except.ok resp)
    (hbad : ∃ tc ∈ resp.tool_calls, ∃ msg, tc.argumentsParse = Except.error msg) :
    ∃ e st', runTurn model tools st = .throw ("Failed to run agent: " ++ e) st' ∧
      st'.messages = st.messages ++ [Message.assistant resp.content resp.tool_calls] := by
  obtain ⟨tc, htc, msg, hmsg⟩ := hbad
  have hne : resp.tool_calls.isEmpty = false := by
    cases hl : resp.tool_calls with
    | nil => rw [hl] at htc; cases htc
    | cons a l => rfl
  obtain ⟨e, ss, ls, hp⟩ :=
    processToolCalls_error_of_bad_parse tools (resp.content.getD "") resp.tool_calls
      ⟨tc, htc, msg, hmsg⟩
  unfold runTurn
  rw [hm]
  dsimp only
  simp only [hne, Bool.false_eq_true, if_false]
  cases hc : resp.content with
  | none =>
    rw [hc] at hp
    dsimp only
    rw [hp]
    exact ⟨e, _, rfl, rfl⟩
  | some s =>
    rw [hc] at hp
    dsimp only
    cases hse : s.isEmpty with
    | true =>
      simp only [if_true]
      rw [hp]
      exact ⟨e, _, rfl, rfl⟩
    | false =>
      simp only [Bool.false_eq_true, if_false]
      rw [hp]
      exact ⟨e, _, rfl, rfl⟩

/-! ## Claim C5 -/

/-- C5: the claim fails on `executeScript`, and the failure is a code
bug: the webview script posts its result as a `scriptResult` message,
but the `onDidReceiveMessage` handler installed by `openPreview` has no
`scriptResult` case, so the slot `script-result-<scriptId>` is never
written and the poll always exhausts its 30-attempt budget.  At the
concrete failing input — the sandbox replies with a defined payload for
the awaited script id before the very first poll — the await still
throws the timeout error instead of resolving with the payload. -/
theorem C5_executeScript_times_out_despite_reply :
    scriptReplyMsg.type = "scriptResult" ∧
    scriptReplyMsg.scriptId = "script-1" ∧
    scriptReplyMsg.result.isUndefined = false ∧
    executeScriptAwait (fun _ => scriptReplyStore) "script-1" =
      .error "Timed out waiting for script execution result" :=
  ⟨rfl, rfl, rfl, rfl⟩

/-! ## Claim C8 -/

/-- C8 counterexample: registering a second tool whose name equals an
already-registered tool's name does not fail — it silently replaces the
first registration, so the registry afterwards holds the second tool
(observed through its description), not the first. -/
theorem C8_counterexample :
    (mapGet (registerTools mapEmpty [firstDupTool, secondDupTool]) "file-system").map
        (fun t => t.description) = some "the second registration" ∧
    (mapGet (registerTools mapEmpty [firstDupTool, secondDupTool]) "file-system").map
        (fun t => t.description) ≠ some "the first registration" := by
  exact ⟨rfl, by decide⟩

/-- C8 amended: `registerTools` never fails; each tool is `Map.set` into
the registry under its name, so registering a name that is already
present silently replaces the existing tool, and after registering a
batch the registry maps each name to the last tool registered under
it. -/
theorem C8_last_registration_wins (m : ToolRegistry) (ts : List BaseTool)
    (tool : BaseTool) :
    mapGet (registerTools m (ts ++ [tool])) tool.name = some tool := by
  rw [registerTools, List.foldl_append]
  exact mapGet_mapSet_self (registerTools m ts) tool.name tool

/-- C8 witness for the amended theorem at a concrete input. -/
theorem C8_witness :
    mapGet (registerTools mapEmpty ([firstDupTool] ++ [secondDupTool]))
      secondDupTool.name = some secondDupTool :=
  C8_last_registration_wins mapEmpty [firstDupTool] secondDupTool

/-! ## Claim C9 -/

/-- C9: a second inbound `inspectionResult` message for a correlation
key whose waiter has already resolved is harmless: the handler is a
total function whose only effect is to overwrite that key's slot —
last write wins on the slot (first conjunct), and every other key of the
store is left untouched (second conjunct), so nothing is resolved a
second time and nothing can crash.  (In this implementation resolution
happens only inside a running poll loop reading the slot; an inbound
message itself resolves nothing.) -/
theorem C9_duplicate_message_ignored (previewId : String) (st : WorkspaceState)
    (m1 m2 : WebviewMessage) (h1 : m1.type = "inspectionResult")
    (h2 : m2.type = "inspectionResult") (hsel : m1.selector = m2.selector) :
    storeGet
        (handleWebviewMessage previewId (handleWebviewMessage previewId st m1) m2)
        ("inspection-" ++ previewId ++ "-" ++ m2.selector) = m2.result ∧
    ∀ k, k ≠ "inspection-" ++ previewId ++ "-" ++ m2.selector →
      storeGet (handleWebviewMessage previewId st m2) k = storeGet st k := by
  constructor
  · simp only [handleWebviewMessage, h1, h2, if_true, hsel]
    exact storeGet_storeUpdate_self _ _ _
  · intro k hk
    simp only [handleWebviewMessage, h2, if_true]
    exact storeGet_storeUpdate_other _ _ _ _ hk

/-- C9 witness at a concrete input: two inspection results for the same
selector on an empty store. -/
theorem C9_witness :
    storeGet
        (handleWebviewMessage "p" (handleWebviewMessage "p" mapEmpty inspectMsg1)
          inspectMsg2)
        ("inspection-" ++ "p" ++ "-" ++ inspectMsg2.selector) = inspectMsg2.result ∧
    ∀ k, k ≠ "inspection-" ++ "p" ++ "-" ++ inspectMsg2.selector →
      storeGet (handleWebviewMessage "p" mapEmpty inspectMsg2) k =
        storeGet mapEmpty k :=
  C9_duplicate_message_ignored "p" mapEmpty inspectMsg1 inspectMsg2 rfl rfl rfl

/-! ## Claim C10 -/

/-- C10: on an open preview `takeScreenshot` succeeds immediately —
its result is a function of the tool state alone, with no reference to
the webview's reply store — returning `success = true` and a path named
from the incremented internal counter; the file `saveScreenshot` later
writes is named from the `Date.now()` timestamp instead, so whenever the
timestamp's decimal numeral differs from the counter's (as it always
does in a real session, the clock being milliseconds since the epoch),
the returned path is not the written path. -/
theorem C10_takeScreenshot_path (st : BrowserPreviewState)
    (tempDir previewId : String) (now : Nat)
    (hopen : st.activePreviews.contains previewId = true)
    (hnow : Nat.repr now ≠ Nat.repr (st.screenshotCounter + 1)) :
    takeScreenshot st tempDir previewId =
      .ok ({ st with screenshotCounter := st.screenshotCounter + 1 }, true,
        pathJoin tempDir
          ("screenshot-" ++ Nat.repr (st.screenshotCounter + 1) ++ ".png")) ∧
    pathJoin tempDir ("screenshot-" ++ Nat.repr (st.screenshotCounter + 1) ++ ".png") ≠
      saveScreenshotPath tempDir now := by
  constructor
  · simp only [takeScreenshot, hopen, if_true]
  · intro heq
    unfold saveScreenshotPath pathJoin at heq
    have h1 := string_append_cancel_left heq
    have h2 := string_append_cancel_right h1
    have h3 := string_append_cancel_left h2
    exact hnow h3.symm

/-! ## Claim C1 -/

/-- C1 counterexample: a turn requesting one call whose serialized
payload fails to parse does not produce a per-call failure result and
continue — the whole session is aborted: `runAgent` throws the wrapped
parse error, no tool-result message is appended for the call, and no
further model turn is issued. -/
theorem C1_counterexample :
    (runAgent badParseModel echoTools "do" none).threw = true ∧
    (runAgent badParseModel echoTools "do" none).errMsg =
      some "Failed to run agent: Unexpected end of JSON input" ∧
    countRequestedCalls (runAgent badParseModel echoTools "do" none).state.messages = 1 ∧
    countToolMsgs (runAgent badParseModel echoTools "do" none).state.messages = 0 ∧
    (runAgent badParseModel echoTools "do" none).state.modelCalls = 1 :=
  ⟨rfl, rfl, rfl, rfl, rfl⟩

/-- C1 amended: `JSON.parse` of a call's arguments runs outside the
per-call `try` that guards `tool.execute`, so a turn containing a call
whose payload fails to parse aborts the session: the loop throws the
wrapped parse error out of `runAgent`, and the thrown state carries the
model's response message but none of the turn's tool-result messages
(the remaining calls are not given results). -/
theorem C1_parse_failure_aborts (model : ModelService) (tools : ToolRegistry)
    (r : Nat) (st : LoopState) (resp : ModelResponse)
    (hm : model st.modelCalls = Except.ok resp)
    (hbad : ∃ tc ∈ resp.tool_calls, ∃ msg, tc.argumentsParse = Except.error msg) :
    ∃ e st', runLoop model tools (r + 1) st = .thrown ("Failed to run agent: " ++ e) st' ∧
      st'.messages = st.messages ++ [Message.assistant resp.content resp.tool_calls] := by
  obtain ⟨e, st', hturn, hmsgs⟩ := runTurn_throw_of_bad_parse model tools st resp hm hbad
  refine ⟨e, st', ?_, hmsgs⟩
  simp only [runLoop, hturn]

/-- C1 witness for the amended theorem at a concrete input. -/
theorem C1_witness :
    ∃ e st',
      runLoop badParseModel echoTools (9 + 1) (initialState "do" none) =
        .thrown ("Failed to run agent: " ++ e) st' ∧
      st'.messages = (initialState "do" none).messages ++
        [Message.assistant none [badJsonCall]] :=
  C1_parse_failure_aborts badParseModel echoTools 9 (initialState "do" none)
    { content := none, tool_calls := [badJsonCall] }
    rfl
    ⟨badJsonCall, List.mem_cons_self _ _, "Unexpected end of JSON input", rfl⟩

/-! ## Claim C2 -/

/-- C2 counterexample: a turn that requests two calls, the second of
which has an unparseable payload, aborts the session with zero
tool-result messages appended — not one result per requested call. -/
theorem C2_counterexample :
    (runAgent mixedParseModel echoTools "go" none).threw = true ∧
    countRequestedCalls (runAgent mixedParseModel echoTools "go" none).state.messages = 2 ∧
    countToolMsgs (runAgent mixedParseModel echoTools "go" none).state.messages = 0 :=
  ⟨rfl, rfl, rfl⟩

/-- C2 amended: provided every requested call's payload parses, the
dispatch of a turn appends exactly one tool-result message per requested
call, in the order the calls were requested, each carrying its own
call's identifier — regardless of whether each call's lookup and
execution succeeded or failed.  (With an unparseable payload in the
turn the session aborts instead, appending nothing.) -/
theorem C2_results_match_calls :
    (∀ (tools : ToolRegistry) (th : String) (calls : List ToolCall),
      (∀ tc ∈ calls, ∃ v, tc.argumentsParse = Except.ok v) →
      ∃ ms ss ls, processToolCalls tools th calls = .ok (ms, ss, ls) ∧
        ms.map toolMsgId = calls.map (fun tc => some tc.id)) ∧
    (∀ (model : ModelService) (tools : ToolRegistry) (r : Nat) (st : LoopState)
        (resp : ModelResponse),
      model st.modelCalls = Except.ok resp →
      resp.tool_calls.isEmpty = false →
      (∀ tc ∈ resp.tool_calls, ∃ v, tc.argumentsParse = Except.ok v) →
      ∃ st' ms, runLoop model tools (r + 1) st = runLoop model tools r st' ∧
        st'.messages = st.messages ++ [Message.assistant resp.content resp.tool_calls] ++ ms ∧
        ms.map toolMsgId = resp.tool_calls.map (fun tc => some tc.id)) := by
  constructor
  · intro tools th calls hparse
    obtain ⟨ms, ss, ls, hok, hf⟩ := processToolCalls_ok_of_parses tools th calls hparse
    exact ⟨ms, ss, ls, hok, forall2_map_ids tools calls ms hf⟩
  · intro model tools r st resp hm hne hparse
    obtain ⟨ms, ss, ls, hok, hf⟩ :=
      processToolCalls_ok_of_parses tools (resp.content.getD "") resp.tool_calls hparse
    obtain ⟨st', hturn, hmsgs, _⟩ :=
      runTurn_next_of_parses model tools st resp hm hne ms ss ls hok
    exact ⟨st', ms, runLoop_succ_next model tools r st st' hturn, hmsgs,
      forall2_map_ids tools _ ms hf⟩

/-- C2 witness for the amended theorem at concrete inputs. -/
theorem C2_witness :
    (∃ ms ss ls,
      processToolCalls echoTools "" [okEchoCall] = .ok (ms, ss, ls) ∧
      ms.map toolMsgId = [okEchoCall].map (fun tc => some tc.id)) ∧
    (∃ st' ms,
      runLoop loopingModel echoTools (0 + 1) (initialState "spin" none) =
        runLoop loopingModel echoTools 0 st' ∧
      st'.messages = (initialState "spin" none).messages ++
        [Message.assistant none [okEchoCall]] ++ ms ∧
      ms.map toolMsgId = [okEchoCall].map (fun tc => some tc.id)) :=
  ⟨C2_results_match_calls.1 echoTools "" [okEchoCall]
      (fun tc htc => by
        rcases List.mem_singleton.mp htc with rfl
        exact ⟨JVal.jnull, rfl⟩),
   C2_results_match_calls.2 loopingModel echoTools 0 (initialState "spin" none)
      { content := none, tool_calls := [okEchoCall] }
      rfl rfl
      (fun tc htc => by
        rcases List.mem_singleton.mp htc with rfl
        exact ⟨JVal.jnull, rfl⟩)⟩

/-! ## Claim C3 -/

/-- C3: a call naming an unregistered tool is recoverable, never
session-fatal: in any turn whose payloads parse, the dispatch always
succeeds, each call gets exactly one tool-result message correlated to
its own id, and a call whose name is not in the registry gets exactly
the `Tool '<name>' not found` error payload (first conjunct, via
`resultFor`); and the loop then proceeds to issue the next model turn
(second conjunct). -/
theorem C3_unknown_tool_recoverable :
    (∀ (tools : ToolRegistry) (th : String) (calls : List ToolCall),
      (∀ tc ∈ calls, ∃ v, tc.argumentsParse = Except.ok v) →
      ∃ ms ss ls, processToolCalls tools th calls = .ok (ms, ss, ls) ∧
        List.Forall₂ (resultFor tools) calls ms) ∧
    (∀ (model : ModelService) (tools : ToolRegistry) (prompt : String)
        (context : Option String) (resp : ModelResponse),
      model 0 = Except.ok resp →
      resp.tool_calls.isEmpty = false →
      (∀ tc ∈ resp.tool_calls, ∃ v, tc.argumentsParse = Except.ok v) →
      2 ≤ (runAgent model tools prompt context).modelCalls) := by
  constructor
  · exact fun tools th calls h => processToolCalls_ok_of_parses tools th calls h
  · intro model tools prompt context resp hm hne hparse
    have hm' : model (initialState prompt context).modelCalls = Except.ok resp := hm
    obtain ⟨ms, ss, ls, hok, hf⟩ :=
      processToolCalls_ok_of_parses tools (resp.content.getD "") resp.tool_calls hparse
    obtain ⟨st', hturn, _, hmc⟩ :=
      runTurn_next_of_parses model tools (initialState prompt context) resp hm' hne ms ss ls hok
    have hone : st'.modelCalls = 1 := by rw [hmc]; rfl
    have hstep : runAgent model tools prompt context = runLoop model tools 9 st' :=
      runLoop_succ_next model tools 9 (initialState prompt context) st' hturn
    have hge := runLoop_modelCalls_ge_succ model tools 9 st' (by omega)
    rw [hstep]
    omega

/-- C3 witness at a concrete input: a single call naming the
unregistered `no-such-tool` on an empty registry, and the loop issuing
the second model turn afterwards. -/
theorem C3_witness :
    (∃ ms ss ls,
      processToolCalls mapEmpty "" [unknownCall] = .ok (ms, ss, ls) ∧
      List.Forall₂ (resultFor mapEmpty) [unknownCall] ms) ∧
    2 ≤ (runAgent unknownToolModel mapEmpty "x" none).modelCalls :=
  ⟨C3_unknown_tool_recoverable.1 mapEmpty "" [unknownCall]
      (fun tc htc => by
        rcases List.mem_singleton.mp htc with rfl
        exact ⟨JVal.jnull, rfl⟩),
   C3_unknown_tool_recoverable.2 unknownToolModel mapEmpty "x" none
      { content := none, tool_calls := [unknownCall] }
      rfl rfl
      (fun tc htc => by
        rcases List.mem_singleton.mp htc with rfl
        exact ⟨JVal.jnull, rfl⟩)⟩

/-! ## Claim C4 -/

/-- C4: however the model behaves — even requesting further tool calls
on every turn — `runAgent` issues at most 10 model-service invocations;
an eleventh turn is never issued and the loop terminates (the recursion
on the iteration budget is the termination argument). -/
theorem C4_at_most_ten_model_turns (model : ModelService) (tools : ToolRegistry)
    (prompt : String) (context : Option String) :
    (runAgent model tools prompt context).modelCalls ≤ 10 := by
  have h := runLoop_modelCalls_le model tools 10 (initialState prompt context)
  simpa [runAgent, initialState] using h

/-! ## Claim C6 -/

/-- C6 counterexample: the claimed dichotomy — every invocation yields
either a final text or a thrown error of a failed model-service call —
fails concretely when the iteration budget runs out: with a model whose
ten responses all request a tool call (and all succeed, so no
model-service failure occurs), the run returns normally, the returned
value is the execution log, that log holds **zero** final-answer
(summary) entries — no model response without tool calls ever occurred,
so no response's text became a final answer — and `finalResponse` holds
only the truncation notice over an empty partial: the caller receives
neither a final text nor a thrown error. -/
theorem C6_counterexample :
    (runAgent loopingModel echoTools "c6" none).threw = false ∧
    returnedLog (runAgent loopingModel echoTools "c6" none) =
      some (runAgent loopingModel echoTools "c6" none).state.executionLog ∧
    countSummaryEntries (runAgent loopingModel echoTools "c6" none).state.executionLog = 0 ∧
    (runAgent loopingModel echoTools "c6" none).state.finalResponse =
      "Execution exceeded maximum number of steps. Here's the partial result: " ∧
    (runAgent loopingModel echoTools "c6" none).state.modelCalls = 10 :=
  ⟨rfl, rfl, rfl, rfl, rfl⟩

/-- C6 amended: for every invocation the caller receives either the
execution log — which carries the final answer text as a summary entry
exactly when some model response contained no tool calls, and carries no
final text when the budget ran out first — or a thrown error (first
conjunct: every run returns the exit state's execution log or throws);
a failure of the model-service call at **any** turn the loop reaches is
session-fatal, rethrown wrapped (second conjunct, over arbitrary loop
states, so it covers later turns, not just the first); and in the
reference scenario the run returns normally with the final answer text
`Found 1 file: a.txt` and an execution log holding exactly one
tool-call step and exactly one final-answer (summary) step carrying
that text (remaining conjuncts). -/
theorem C6_log_or_thrown :
    (∀ (model : ModelService) (tools : ToolRegistry) (prompt : String)
        (context : Option String),
      (∃ st, runAgent model tools prompt context = .ok st.executionLog st) ∨
      (∃ msg st, runAgent model tools prompt context = .thrown msg st)) ∧
    (∀ (model : ModelService) (tools : ToolRegistry) (r : Nat) (st : LoopState)
        (e : String),
      model st.modelCalls = Except.error e →
      runLoop model tools (r + 1) st =
        .thrown ("Failed to run agent: " ++ e)
          { st with modelCalls := st.modelCalls + 1 }) ∧
    (runAgent scenarioModel scenarioTools "list files in /tmp" none).threw = false ∧
    countToolCallEntries
      (runAgent scenarioModel scenarioTools "list files in /tmp" none).state.executionLog = 1 ∧
    countSummaryEntries
      (runAgent scenarioModel scenarioTools "list files in /tmp" none).state.executionLog = 1 ∧
    summaryTexts
      (runAgent scenarioModel scenarioTools "list files in /tmp" none).state.executionLog =
      ["Found 1 file: a.txt"] ∧
    (runAgent scenarioModel scenarioTools "list files in /tmp" none).state.finalResponse =
      "Found 1 file: a.txt" := by
  refine ⟨?_, ?_, rfl, rfl, rfl, rfl, rfl⟩
  · intro model tools prompt context
    cases h : runAgent model tools prompt context with
    | ok ret st =>
      have hret : ret = st.executionLog :=
        runLoop_ok_returns_log model tools 10 (initialState prompt context) ret st h
      left
      exact ⟨st, by rw [hret]⟩
    | thrown msg st =>
      right
      exact ⟨msg, st, rfl⟩
  · intro model tools r st e hm
    have hturn : runTurn model tools st =
        .throw ("Failed to run agent: " ++ e) { st with modelCalls := st.modelCalls + 1 } := by
      unfold runTurn
      rw [hm]
    rw [runLoop, hturn]

/-- C6 witness for the amended theorem at concrete inputs: the
model-failure conjunct applied to a model failing on its first call from
the seeded state. -/
theorem C6_witness :
    runLoop (fun _ => Except.error "boom") mapEmpty (9 + 1) (initialState "hi" none) =
      .thrown ("Failed to run agent: " ++ "boom")
        { initialState "hi" none with
            modelCalls := (initialState "hi" none).modelCalls + 1 } :=
  C6_log_or_thrown.2.1 (fun _ => Except.error "boom") mapEmpty 9 (initialState "hi" none)
    "boom" rfl

/-! ## Claim C7 -/

/-- C7: when the iteration budget is exhausted the caller does **not**
receive the truncation-prefixed partial text — the `return executionLog`
statement hands back the execution log: at a concrete run whose model
requests a tool call on all 10 turns, the run returns normally, the
returned value is the loop state's execution log, that log records the
truncation (`## Error`) — that half of the claim holds — but contains
no summary/final-text entry, while the truncation-prefixed partial text
is computed only into the discarded `finalResponse` local. -/
theorem C7_truncation_log_returned :
    (runAgent loopingModel echoTools "spin" none).threw = false ∧
    returnedLog (runAgent loopingModel echoTools "spin" none) =
      some (runAgent loopingModel echoTools "spin" none).state.executionLog ∧
    hasTruncationEntry (runAgent loopingModel echoTools "spin" none).state.executionLog = true ∧
    summaryTexts (runAgent loopingModel echoTools "spin" none).state.executionLog = [] ∧
    (runAgent loopingModel echoTools "spin" none).state.finalResponse =
      "Execution exceeded maximum number of steps. Here's the partial result: " ∧
    (runAgent loopingModel echoTools "spin" none).state.modelCalls = 10 :=
  ⟨rfl, rfl, rfl, rfl, rfl, rfl⟩

/-- C10 witness at a concrete input. -/
theorem C10_witness :
    (⟨["preview-1"], 0⟩ : BrowserPreviewState).activePreviews.contains "preview-1" = true ∧
    Nat.repr 17 ≠ Nat.repr ((⟨["preview-1"], 0⟩ : BrowserPreviewState).screenshotCounter + 1) ∧
    (takeScreenshot ⟨["preview-1"], 0⟩ "/ws/.code-agent-temp" "preview-1" =
      .ok (⟨["preview-1"], 1⟩, true,
        pathJoin "/ws/.code-agent-temp" ("screenshot-" ++ Nat.repr 1 ++ ".png")) ∧
    pathJoin "/ws/.code-agent-temp" ("screenshot-" ++ Nat.repr 1 ++ ".png") ≠
      saveScreenshotPath "/ws/.code-agent-temp" 17) :=
  ⟨by decide, by decide,
    C10_takeScreenshot_path ⟨["preview-1"], 0⟩ "/ws/.code-agent-temp" "preview-1" 17
      (by decide) (by decide)⟩

end Codi
